import Mathlib

/-
Verification of the `deploy` tool (deploy/deploy/deploy.py): a declarative
deployment executor.  The Python source is shallowly embedded below:

  * `Config` mirrors the validated configuration document (six string fields).
  * `PipInstall`, `PipUninstall`, `Paster`, `Operation` mirror the deployment
    plan; optional YAML keys become `Option` fields.
  * Command builders (`pip_install`, `pip_uninstall`, `paster_cmd`, ...) mirror
    `Deployer._pip_install` etc.; a Python `KeyError` on a missing dict key is
    embedded as `Except.error <key>`.
  * `execOne` mirrors `Deployer._execute`; `runSteps`/`runOps`/`execute`
    mirror `Deployer.execute`.  The OS process-spawning primitive is an
    external collaborator and is abstracted by a `world` function mapping an
    argument vector to its outcome (success with output / non-zero exit with
    output / spawn failure).  Log calls, prints and spawns become an `Event`
    trace; a propagating Python exception becomes `Option PyExc`.
  * `validation_msg` mirrors the error-tree renderer; `validate_config` and
    `validate_deployment` model the cerberus Validator (an external library)
    on the exact schemas of the source.
-/

/-- Validated operator configuration: the six required string fields of
`config.yaml` (`validate_config`'s schema). -/
structure Config where
  name : String
  restart : String
  virtualenv : String
  config : String
  user : String
  group : String
deriving DecidableEq

/-- One install spec of a deployment document.  `src`, `tag`, `version` and
`fail_on_error` are optional keys of the YAML mapping (schema
`install_schema` in `validate_deployment`). -/
structure PipInstall where
  name : String
  src : Option String := none
  tag : Option String := none
  version : Option String := none
  fail_on_error : Option Bool := none
deriving DecidableEq

/-- One uninstall spec: required `name`, optional `fail_on_error`. -/
structure PipUninstall where
  name : String
  fail_on_error : Option Bool := none
deriving DecidableEq

/-- A paster operation: both keys are optional in the schema. -/
structure Paster where
  plugin : Option String := none
  command : Option String := none
deriving DecidableEq

/-- One element of the `deployment` list, dispatched on in
`Deployer.execute` by the keys `install` / `uninstall` / `paster`. -/
inductive Operation where
  | install (specs : List PipInstall)
  | uninstall (specs : List PipUninstall)
  | paster (p : Paster)
deriving DecidableEq

/-- The `Deployer` object: validated config, deployment plan, and the uid/gid
resolved from `pwd.getpwnam` / `grp.getgrnam` at construction. -/
structure Deployer where
  config : Config
  deployment : List Operation
  uid : Nat
  gid : Nat
deriving DecidableEq

/-- Identity-switching system calls issued by the pre-exec hook. -/
inductive SysCall where
  | setgid (gid : Nat)
  | setuid (uid : Nat)
deriving DecidableEq

/-- The function `user_changer(uid, gid)` of the source: the pre-exec hook run
in the child, as the ordered list of system calls it performs. -/
def user_changer (uid gid : Nat) : List SysCall :=
  [SysCall.setgid gid, SysCall.setuid uid]

/-- A Python value handed to a lazy logging call (`logger.warning(fmt, ...)`
arguments). -/
inductive PyVal where
  | vstr (s : String)
  | vint (n : Int)
  | vlist (xs : List String)
deriving DecidableEq

/-- A single quote character (Python `repr` of a string uses it). -/
def quoteCh : String := String.singleton (Char.ofNat 39)

/-- Python `str()` of a logging argument; a list renders as its `repr`. -/
def pyStr : PyVal → String
  | PyVal.vstr s => s
  | PyVal.vint n => toString n
  | PyVal.vlist xs => "[" ++ String.intercalate ", " (xs.map (fun s => quoteCh ++ s ++ quoteCh)) ++ "]"

/-- Python percent-formatting `fmt % args` as used by the logging module:
returns `none` when formatting raises (too few or too many arguments, or a
`%d` applied to a non-integer), in which case the logging handler emits no
message (it reports the formatting error instead). -/
def pyFormatAux : List Char → List PyVal → Option String
  | [], [] => some ""
  | [], _ :: _ => none
  | ['%'], _ => none
  | '%' :: 's' :: cs, a :: args => (pyFormatAux cs args).map (fun r => pyStr a ++ r)
  | '%' :: 'd' :: cs, PyVal.vint n :: args => (pyFormatAux cs args).map (fun r => toString n ++ r)
  | '%' :: '%' :: cs, args => (pyFormatAux cs args).map (fun r => "%" ++ r)
  | '%' :: _ :: _, _ => none
  | c :: cs, args => (pyFormatAux cs args).map (fun r => String.singleton c ++ r)

/-- Rendering of a deferred log record `logger.xxx(fmt, args...)`. -/
def renderLogRecord (fmt : String) (args : List PyVal) : Option String :=
  pyFormatAux fmt.toList args

/-- Observable events of a run: log records, `print` output, and child
process spawns (with the pre-exec identity switch attached to the child). -/
inductive Event where
  | info (line : String)
  | warning (fmt : String) (args : List PyVal)
  | error (line : String)
  | print (out : String)
  | spawn (cmd : List String) (preExec : List SysCall)
deriving DecidableEq

/-- Outcome of the external process-spawning primitive
(`subprocess.check_output`) for a given argument vector. -/
inductive ExecResult where
  | ok (output : String)
  | fail (code : Int) (output : String)
  | err (msg : String)
deriving DecidableEq

/-- A propagating Python exception of the embedded code. -/
inductive PyExc where
  | calledProcessError (cmd : List String) (code : Int) (output : String)
  | keyError (key : String)
  | other (msg : String)
deriving DecidableEq

/-- Test whether a string's last character is a slash (Python
`path.endswith(sep)` in `os.path.join`). -/
def endsSlash (s : String) : Bool :=
  s.data.getLast? = some '/'

/-- Test whether a string's first character is a slash (Python
`path.startswith(sep)` in `os.path.join`). -/
def startsSlash (s : String) : Bool :=
  s.data.head? = some '/'

/-- Binary posix `os.path.join` (no component here is ever a bytes object or
carries a drive): an absolute second component replaces the first; otherwise
a separator is inserted unless the first is empty or already ends in one. -/
def ospJoin (a b : String) : String :=
  if startsSlash b then b
  else if a = "" || endsSlash a then a ++ b
  else a ++ "/" ++ b

/-- The method `Deployer._virtualenv_cmd`:
`os.path.join(config["virtualenv"], "bin", cmd)`. -/
def virtualenv_cmd (cfg : Config) (cmd : String) : String :=
  ospJoin (ospJoin cfg.virtualenv "bin") cmd

/-- Splitting a character list on single space characters (empty pieces are
kept, as Python's `str.split(" ")` does). -/
def splitSpChars (cur : List Char) : List Char → List (List Char)
  | [] => [cur.reverse]
  | c :: rest =>
    if c = ' ' then cur.reverse :: splitSpChars [] rest
    else splitSpChars (c :: cur) rest

/-- Python `s.split(" ")`: split on each single space, keeping empty pieces
(so consecutive spaces yield empty strings and `"".split(" ") = [""]`). -/
def splitSp (s : String) : List String :=
  (splitSpChars [] s.data).map (fun cs => String.mk cs)

/-- The method `Deployer._pip_requirement`:
`"{src}@{tag}#egg={name}".format(**pip)`; a missing key raises `KeyError`
(fields are substituted left to right, so `src` is reported before `tag`). -/
def pip_requirement (pip : PipInstall) : Except String String :=
  match pip.src with
  | none => Except.error "src"
  | some s =>
    match pip.tag with
    | none => Except.error "tag"
    | some t => Except.ok (s ++ "@" ++ t ++ "#egg=" ++ pip.name)

/-- The method `Deployer._pip_install_src`. -/
def pip_install_src (cfg : Config) (pip : PipInstall) : Except String (List String) :=
  (pip_requirement pip).map
    (fun r => [virtualenv_cmd cfg "pip", "install", "-U", "-e", r])

/-- The method `Deployer._pip_install_package`:
`pip["version"]` raises `KeyError` when the key is absent. -/
def pip_install_package (cfg : Config) (pip : PipInstall) : Except String (List String) :=
  match pip.version with
  | none => Except.error "version"
  | some v => Except.ok [virtualenv_cmd cfg "pip", "install", "-U", pip.name ++ "==" ++ v]

/-- The method `Deployer._pip_install`: dispatch on `"src" in pip`. -/
def pip_install (cfg : Config) (pip : PipInstall) : Except String (List String) :=
  if pip.src.isSome then pip_install_src cfg pip
  else pip_install_package cfg pip

/-- The method `Deployer._pip_uninstall`. -/
def pip_uninstall (cfg : Config) (pip : PipUninstall) : List String :=
  [virtualenv_cmd cfg "pip", "uninstall", pip.name]

/-- The method `Deployer._paster_cmd`: `paster["plugin"]` is read first, then
`paster["command"]`; either missing key raises `KeyError`. -/
def paster_cmd (cfg : Config) (p : Paster) : Except String (List String) :=
  match p.plugin with
  | none => Except.error "plugin"
  | some pl =>
    match p.command with
    | none => Except.error "command"
    | some c =>
      Except.ok ([virtualenv_cmd cfg "paster", "--plugin", pl]
        ++ splitSp c ++ ["--config", cfg.config])

/-- The method `Deployer._restart`: `config["restart"].split(" ")`. -/
def restart_cmd (cfg : Config) : List String :=
  splitSp cfg.restart

/-- The method `Deployer._execute(cmd, dry_run, root, fail_on_error)`.
Returns the events it emits and the exception it propagates, if any.  In a
dry run only the info line is logged and nothing is spawned.  Otherwise the
child is spawned with `user_changer` as pre-exec hook unless `root`; on a
non-zero exit a warning record (whose rendering is deferred by the logging
module) is emitted, the captured output is printed, and the
`CalledProcessError` is re-raised exactly when `fail_on_error`; on a spawn
failure an error line is logged and the exception always propagates. -/
def execOne (d : Deployer) (world : List String → ExecResult) (cmd : List String)
    (dryRun root failOnError : Bool) : List Event × Option PyExc :=
  let pfx := if dryRun then "DRY RUN: " else ""
  let usr := if root then "root" else d.config.user ++ ":" ++ d.config.group
  let line := Event.info (pfx ++ "(AS " ++ usr ++ ") " ++ String.intercalate " " cmd)
  if dryRun then ([line], none)
  else
    let pre := if root then [] else user_changer d.uid d.gid
    match world cmd with
    | ExecResult.ok out => ([line, Event.spawn cmd pre, Event.print out], none)
    | ExecResult.fail code out =>
      ([line, Event.spawn cmd pre,
        Event.warning "Command %s returned exit code %d\n%s" [PyVal.vlist cmd, PyVal.vint code],
        Event.print out],
       if failOnError then some (PyExc.calledProcessError cmd code out) else none)
    | ExecResult.err m =>
      ([line,
        Event.error ("Could not execute command " ++ quoteCh ++ String.intercalate " " cmd
          ++ quoteCh ++ ": " ++ m)],
       some (PyExc.other m))

/-- The body of `Deployer.execute`'s loop for one operation: each spec is
turned into its command build result paired with the effective
`fail_on_error` (`spec.get("fail_on_error", True)` for install and uninstall
specs; the `_execute` default `True` for the paster command). -/
def stepsOfOp (d : Deployer) : Operation → List (Except String (List String) × Bool)
  | Operation.install specs =>
    specs.map (fun s => (pip_install d.config s, s.fail_on_error.getD true))
  | Operation.uninstall specs =>
    specs.map (fun s => (Except.ok (pip_uninstall d.config s), s.fail_on_error.getD true))
  | Operation.paster p => [(paster_cmd d.config p, true)]

/-- Sequential execution of the steps of one operation: a build failure
(`KeyError`) aborts at once; an exception from `_execute` aborts; otherwise
the loop continues. -/
def runSteps (d : Deployer) (world : List String → ExecResult) (dryRun : Bool) :
    List (Except String (List String) × Bool) → List Event × Option PyExc
  | [] => ([], none)
  | step :: rest =>
    match step.1 with
    | Except.error k => ([], some (PyExc.keyError k))
    | Except.ok cmd =>
      let r := execOne d world cmd dryRun false step.2
      match r.2 with
      | some e => (r.1, some e)
      | none =>
        let rr := runSteps d world dryRun rest
        (r.1 ++ rr.1, rr.2)

/-- The `for operation in self.deployment["deployment"]` loop of
`Deployer.execute`. -/
def runOps (d : Deployer) (world : List String → ExecResult) (dryRun : Bool) :
    List Operation → List Event × Option PyExc
  | [] => ([], none)
  | op :: rest =>
    let r := runSteps d world dryRun (stepsOfOp d op)
    match r.2 with
    | some e => (r.1, some e)
    | none =>
      let rr := runOps d world dryRun rest
      (r.1 ++ rr.1, rr.2)

/-- The method `Deployer.execute(dry_run)`: log the deploy banner, run the
operations in order, and — only if no exception escaped the loop — build and
run the restart command as root with the default failure policy. -/
def execute (d : Deployer) (dryRun : Bool) (world : List String → ExecResult) :
    List Event × Option PyExc :=
  let banner := Event.info ("Deploying to " ++ d.config.name)
  let r := runOps d world dryRun d.deployment
  match r.2 with
  | some e => (banner :: r.1, some e)
  | none =>
    let rr := execOne d world (restart_cmd d.config) dryRun true true
    (banner :: (r.1 ++ rr.1), rr.2)

/-- All command vectors an operation would build, in order; `none` if some
build raises. -/
def seqSteps : List (Except String (List String) × Bool) → Option (List (List String))
  | [] => some []
  | step :: rest =>
    match step.1 with
    | Except.error _ => none
    | Except.ok c => (seqSteps rest).map (fun cs => c :: cs)

/-- All command vectors of the plan's operations, in order; `none` if some
build raises. -/
def seqOps (d : Deployer) : List Operation → Option (List (List String))
  | [] => some []
  | op :: rest =>
    match seqSteps (stepsOfOp d op), seqOps d rest with
    | some cs, some rs => some (cs ++ rs)
    | _, _ => none

/-- The ordered command vectors of the whole plan (restart excluded);
defined exactly when no builder raises a `KeyError`. -/
def buildPlan (d : Deployer) : Option (List (List String)) :=
  seqOps d d.deployment

/-- The error structure produced by the cerberus validator: a mapping from
field names to sub-errors (insertion-ordered), a list of sub-errors, or a
leaf message string. -/
inductive ErrTree where
  | leaf (msg : String)
  | dict (entries : List (String × ErrTree))
  | list (items : List ErrTree)

mutual

/-- The inner closure `_validation_msg` of `validation_msg`, with the mutable
accumulator `field_errors` made explicit: a dict appends `"<key>."` before
recursing into each value, a list recurses into each item, and a leaf appends
the quoted message. -/
def vmsgAcc : String → ErrTree → String
  | acc, ErrTree.leaf m => acc ++ "\"" ++ m ++ "\""
  | acc, ErrTree.dict kvs => vmsgDict acc kvs
  | acc, ErrTree.list xs => vmsgList acc xs

/-- Accumulator pass over a dict's entries in insertion order. -/
def vmsgDict : String → List (String × ErrTree) → String
  | acc, [] => acc
  | acc, kv :: rest => vmsgDict (vmsgAcc (acc ++ kv.1 ++ ".") kv.2) rest

/-- Accumulator pass over a list's items in order. -/
def vmsgList : String → List ErrTree → String
  | acc, [] => acc
  | acc, x :: rest => vmsgList (vmsgAcc acc x) rest

end

/-- The function `validation_msg(path, errors)` of the source. -/
def validation_msg (path : String) (errors : ErrTree) : String :=
  vmsgAcc ("Validation error(s) in " ++ path ++ ": ") errors

mutual

/-- Compositional (non-accumulator) description of what `validation_msg`
appends for a subtree: depth-first, insertion-order traversal in which each
dict key contributes `"<key>."` once when first visited and each leaf
contributes its message in double quotes. -/
def flattenDF : ErrTree → String
  | ErrTree.leaf m => "\"" ++ m ++ "\""
  | ErrTree.dict kvs => flattenKVs kvs
  | ErrTree.list xs => flattenList xs

/-- Depth-first rendering of a dict's entries. -/
def flattenKVs : List (String × ErrTree) → String
  | [] => ""
  | kv :: rest => kv.1 ++ "." ++ flattenDF kv.2 ++ flattenKVs rest

/-- Depth-first rendering of a list's items. -/
def flattenList : List ErrTree → String
  | [] => ""
  | x :: rest => flattenDF x ++ flattenList rest

end

mutual

/-- The error paths of a tree, as claimed by the spec's rendering rule: for
each leaf, the concatenation of the `"<field>."` segments from the root down
to it, paired with the leaf message.  This definition follows the spec's
words (one rendered item per error path, full path repeated for each), to be
compared with the source-derived `validation_msg`. -/
def pathsOf : ErrTree → List (String × String)
  | ErrTree.leaf m => [("", m)]
  | ErrTree.dict kvs => pathsOfKVs kvs
  | ErrTree.list xs => pathsOfList xs

/-- Error paths below a dict: each key prefixes all paths of its subtree. -/
def pathsOfKVs : List (String × ErrTree) → List (String × String)
  | [] => []
  | kv :: rest => (pathsOf kv.2).map (fun p => (kv.1 ++ "." ++ p.1, p.2)) ++ pathsOfKVs rest

/-- Error paths below a list node. -/
def pathsOfList : List ErrTree → List (String × String)
  | [] => []
  | x :: rest => pathsOf x ++ pathsOfList rest

end

/-- Rendering of a list of error paths as the spec's words describe: each
path's `"field."` segments followed by the leaf message in quotes. -/
def joinPaths : List (String × String) → String
  | [] => ""
  | p :: rest => p.1 ++ "\"" ++ p.2 ++ "\"" ++ joinPaths rest

/-- Rendering the spec's claim describes for `validation_msg`: the document
prefix followed by one item per error path, each carrying its full
`"field."` chain.  Follows the spec's words, for comparison with the
source's `validation_msg`. -/
def claimRender (path : String) (errors : ErrTree) : String :=
  "Validation error(s) in " ++ path ++ ": " ++ joinPaths (pathsOf errors)

/-- A parsed YAML document value (the parsing layer is out of scope; the
validators consume this generic nested structure). -/
inductive Y where
  | str (s : String)
  | int (n : Int)
  | bool (b : Bool)
  | list (xs : List Y)
  | dict (kvs : List (String × Y))

/-- Key lookup in a parsed mapping (YAML mappings have unique keys). -/
def ylookup (kvs : List (String × Y)) (k : String) : Option Y :=
  match kvs with
  | [] => none
  | kv :: rest => if kv.1 = k then some kv.2 else ylookup rest k

/-- The six required fields of `validate_config`'s schema, in schema order. -/
def configSchemaFields : List String :=
  ["name", "restart", "virtualenv", "config", "user", "group"]

/-- Cerberus error for one schema field of the config document: missing
required field, present with a non-string value, or no error.  Error values
in a cerberus error tree are lists of messages. -/
def cfgFieldErr (kvs : List (String × Y)) (f : String) : Option ErrTree :=
  match ylookup kvs f with
  | none => some (ErrTree.list [ErrTree.leaf "required field"])
  | some (Y.str _) => none
  | some _ => some (ErrTree.list [ErrTree.leaf "must be of string type"])

/-- Cerberus errors for document keys outside the schema
(`allow_unknown` is left at its default `False`). -/
def cfgUnknownErrs (kvs : List (String × Y)) : List (String × ErrTree) :=
  kvs.filterMap (fun kv =>
    if kv.1 ∈ configSchemaFields then none
    else some (kv.1, ErrTree.list [ErrTree.leaf "unknown field"]))

/-- All cerberus errors of a config document against `validate_config`'s
schema: one entry per offending field. -/
def configErrors (kvs : List (String × Y)) : List (String × ErrTree) :=
  configSchemaFields.filterMap (fun f => (cfgFieldErr kvs f).map (fun e => (f, e)))
    ++ cfgUnknownErrs kvs

/-- The function `validate_config(config)` of the source: the schema has no
defaults or coercions, so normalization is the identity; the result pairs
the document with the validator's errors (`False`, i.e. `none`, when it
validates).  The external cerberus validator is modelled on this schema;
a non-mapping document makes cerberus raise `DocumentError`. -/
def validate_config (doc : Y) : Y × Option ErrTree :=
  match doc with
  | Y.dict kvs =>
    match configErrors kvs with
    | [] => (doc, none)
    | es => (doc, some (ErrTree.dict es))
  | _ => (doc, some (ErrTree.leaf "document is not a mapping"))

/-- Type test for the cerberus rule `type: string`. -/
def isYStr : Y → Bool
  | Y.str _ => true
  | _ => false

/-- Type test for the cerberus rule `type: boolean`. -/
def isYBool : Y → Bool
  | Y.bool _ => true
  | _ => false

/-- A mapping matches a flat cerberus schema when every present key is a
schema key with a well-typed value and every required key is present. -/
def dictMatches (kvs : List (String × Y)) (fieldTypes : List (String × (Y → Bool)))
    (required : List String) : Bool :=
  kvs.all (fun kv =>
    match fieldTypes.lookup kv.1 with
    | some p => p kv.2
    | none => false)
  && required.all (fun f => (ylookup kvs f).isSome)

/-- Test that a value is a list all of whose elements satisfy a predicate
(the cerberus rule `type: list` with an element `schema`). -/
def yListAll (p : Y → Bool) : Y → Bool
  | Y.list xs => xs.all p
  | _ => false

/-- One element of an `install` list against `install_schema`. -/
def installSpecOk (y : Y) : Bool :=
  match y with
  | Y.dict kvs =>
    dictMatches kvs
      [("name", isYStr), ("src", isYStr), ("tag", isYStr),
       ("version", isYStr), ("fail_on_error", isYBool)]
      ["name"]
  | _ => false

/-- One element of an `uninstall` list against its schema. -/
def uninstallSpecOk (y : Y) : Bool :=
  match y with
  | Y.dict kvs =>
    dictMatches kvs [("name", isYStr), ("fail_on_error", isYBool)] ["name"]
  | _ => false

/-- The value of a `paster` key against its schema (both fields optional). -/
def pasterValOk (y : Y) : Bool :=
  match y with
  | Y.dict kvs => dictMatches kvs [("plugin", isYStr), ("command", isYStr)] []
  | _ => false

/-- A deployment step against the first of `command_schemas`
(`{install: list of install_schema}`; the `install` key itself is not
marked required). -/
def stepMatchesInstall (kvs : List (String × Y)) : Bool :=
  dictMatches kvs [("install", yListAll installSpecOk)] []

/-- A deployment step against the second of `command_schemas`. -/
def stepMatchesUninstall (kvs : List (String × Y)) : Bool :=
  dictMatches kvs [("uninstall", yListAll uninstallSpecOk)] []

/-- A deployment step against the third of `command_schemas`. -/
def stepMatchesPaster (kvs : List (String × Y)) : Bool :=
  dictMatches kvs [("paster", pasterValOk)] []

/-- The cerberus rule `oneof_schema`: a step is valid when it matches
exactly one of the three command schemas. -/
def stepOk (y : Y) : Bool :=
  match y with
  | Y.dict kvs =>
    ((if stepMatchesInstall kvs then 1 else 0)
      + (if stepMatchesUninstall kvs then 1 else 0)
      + (if stepMatchesPaster kvs then 1 else 0)) = 1
  | _ => false

/-- Acceptance of a deployment document by `validate_deployment`'s schema:
an optional `deployment` key holding a list of valid steps, no other keys. -/
def depDocOk (doc : Y) : Bool :=
  match doc with
  | Y.dict kvs => dictMatches kvs [("deployment", yListAll stepOk)] []
  | _ => false

/-- The function `validate_deployment(deployment)` of the source: the schema
declares no defaults, so normalization is the identity.  Acceptance is
modelled precisely by `depDocOk`; the error tree the external validator
builds on rejection is abstracted to an opaque-content leaf (no claim
inspects it). -/
def validate_deployment (doc : Y) : Y × Option ErrTree :=
  if depDocOk doc then (doc, none)
  else (doc, some (ErrTree.leaf "deployment document rejected"))

/-- String value of an optional key (used when converting a validated
document into plan records; validated values at these keys are strings). -/
def getStrKey (kvs : List (String × Y)) (k : String) : Option String :=
  match ylookup kvs k with
  | some (Y.str s) => some s
  | _ => none

/-- Boolean value of an optional key. -/
def getBoolKey (kvs : List (String × Y)) (k : String) : Option Bool :=
  match ylookup kvs k with
  | some (Y.bool b) => some b
  | _ => none

/-- A validated install-spec mapping as a `PipInstall` record. -/
def toInstallSpec (y : Y) : Option PipInstall :=
  match y with
  | Y.dict kvs =>
    match getStrKey kvs "name" with
    | some n =>
      some { name := n, src := getStrKey kvs "src", tag := getStrKey kvs "tag",
             version := getStrKey kvs "version",
             fail_on_error := getBoolKey kvs "fail_on_error" }
    | none => none
  | _ => none

/-- A validated uninstall-spec mapping as a `PipUninstall` record. -/
def toUninstallSpec (y : Y) : Option PipUninstall :=
  match y with
  | Y.dict kvs =>
    match getStrKey kvs "name" with
    | some n => some { name := n, fail_on_error := getBoolKey kvs "fail_on_error" }
    | none => none
  | _ => none

/-- Conversion of every element of a list, all-or-nothing. -/
def allSome {α : Type} (f : Y → Option α) : List Y → Option (List α)
  | [] => some []
  | y :: rest =>
    match f y, allSome f rest with
    | some a, some as2 => some (a :: as2)
    | _, _ => none

/-- One validated deployment step as an `Operation`, following the
`if "install" in operation / elif "uninstall" / elif "paster"` dispatch of
`Deployer.execute` (a validated step holds exactly one of the keys). -/
def toOperation (y : Y) : Option Operation :=
  match y with
  | Y.dict kvs =>
    match ylookup kvs "install" with
    | some (Y.list xs) => (allSome toInstallSpec xs).map Operation.install
    | some _ => none
    | none =>
      match ylookup kvs "uninstall" with
      | some (Y.list xs) => (allSome toUninstallSpec xs).map Operation.uninstall
      | some _ => none
      | none =>
        match ylookup kvs "paster" with
        | some (Y.dict pkvs) =>
          some (Operation.paster
            { plugin := getStrKey pkvs "plugin", command := getStrKey pkvs "command" })
        | _ => none
  | _ => none

/-- The validated deployment document as a plan (the `deployment` key's list
of steps).  `Deployer.execute` indexes `deployment["deployment"]`, so a
document without that key makes it raise at execution time; conversion
yields `none` there. -/
def toPlan (doc : Y) : Option (List Operation) :=
  match doc with
  | Y.dict kvs =>
    match ylookup kvs "deployment" with
    | some (Y.list xs) => allSome toOperation xs
    | _ => none
  | _ => none

/-- The validated config document as a `Config` record. -/
def toConfig (doc : Y) : Option Config :=
  match doc with
  | Y.dict kvs =>
    match getStrKey kvs "name", getStrKey kvs "restart", getStrKey kvs "virtualenv",
          getStrKey kvs "config", getStrKey kvs "user", getStrKey kvs "group" with
    | some n, some r, some v, some c, some u, some g =>
      some { name := n, restart := r, virtualenv := v, config := c, user := u, group := g }
    | _, _, _, _, _, _ => none
  | _ => none

/-- A short human description of a propagating exception (in the source an
uncaught exception aborts the click command with a traceback). -/
def describeExc : PyExc → String
  | PyExc.calledProcessError cmd code _ =>
    "CalledProcessError: " ++ String.intercalate " " cmd ++ " exited " ++ toString code
  | PyExc.keyError k => "KeyError: " ++ k
  | PyExc.other m => m

/-- The `main` command of the source, after the CLI and YAML layers: validate
the config document (abort with the rendered validation message), validate
the deployment document (likewise), construct the `Deployer` — resolving the
configured user and group through the external `pwd`/`grp` lookups `pw` and
`gr`, which raise when the name is unknown — and run `Deployer.execute`.
The result is the event trace together with the abort message, if any; an
abort before construction runs zero commands, so its trace is empty. -/
def mainFlow (pw gr : String → Option Nat) (configDoc depDoc : Y) (dryRun : Bool)
    (world : List String → ExecResult) : List Event × Option String :=
  match (validate_config configDoc).2 with
  | some errs => ([], some (validation_msg "configuration file" errs))
  | none =>
    match (validate_deployment depDoc).2 with
    | some errs => ([], some (validation_msg "deployment file" errs))
    | none =>
      match toConfig configDoc, toPlan depDoc with
      | some cfg, some plan =>
        match pw cfg.user, gr cfg.group with
        | some uid, some gid =>
          let r := execute { config := cfg, deployment := plan, uid := uid, gid := gid }
            dryRun world
          (r.1, r.2.map describeExc)
        | _, _ => ([], some "identity resolution failed")
      | _, _ => ([], some "document conversion failed")

/-- In a dry run `_execute` logs exactly the simulated line — prefixed
`"DRY RUN: "` and carrying the identity label — spawns nothing, and never
raises. -/
theorem execOne_dry (d : Deployer) (world : List String → ExecResult) (cmd : List String)
    (root foe : Bool) :
    execOne d world cmd true root foe =
      ([Event.info ("DRY RUN: (AS "
          ++ (if root then "root" else d.config.user ++ ":" ++ d.config.group)
          ++ ") " ++ String.intercalate " " cmd)], none) := rfl

/-- The dry-run simulated line of a non-root (identity-dropped) command. -/
def drySpecLine (d : Deployer) (cmd : List String) : Event :=
  Event.info ("DRY RUN: (AS " ++ d.config.user ++ ":" ++ d.config.group ++ ") "
    ++ String.intercalate " " cmd)

/-- The dry-run simulated line of the privileged restart command. -/
def dryRootLine (cmd : List String) : Event :=
  Event.info ("DRY RUN: (AS root) " ++ String.intercalate " " cmd)

/-- A loop over steps whose prefix raises no exception appends the suffix's
events and returns the suffix's exception. -/
theorem runSteps_append_ok (d : Deployer) (world : List String → ExecResult) (dr : Bool) :
    ∀ a b, (runSteps d world dr a).2 = none →
      runSteps d world dr (a ++ b) =
        ((runSteps d world dr a).1 ++ (runSteps d world dr b).1, (runSteps d world dr b).2)
  | [], b, _ => by simp [runSteps]
  | step :: a, b, h => by
    match hs : step.1 with
    | Except.error k => simp [runSteps, hs] at h
    | Except.ok cmd =>
      match hr : (execOne d world cmd dr false step.2).2 with
      | some e => simp [runSteps, hs, hr] at h
      | none =>
        have h2 : (runSteps d world dr a).2 = none := by
          simp [runSteps, hs, hr] at h
          exact h
        simp only [List.cons_append, runSteps, hs, hr, List.append_eq]
        rw [runSteps_append_ok d world dr a b h2]
        simp

/-- A loop over steps whose prefix raises is cut short there: the appended
suffix is never reached. -/
theorem runSteps_append_err (d : Deployer) (world : List String → ExecResult) (dr : Bool) :
    ∀ a b e, (runSteps d world dr a).2 = some e →
      runSteps d world dr (a ++ b) = runSteps d world dr a
  | [], _, e, h => by simp [runSteps] at h
  | step :: a, b, e, h => by
    match hs : step.1 with
    | Except.error k => simp [runSteps, hs]
    | Except.ok cmd =>
      match hr : (execOne d world cmd dr false step.2).2 with
      | some e2 => simp [runSteps, hs, hr]
      | none =>
        have h2 : (runSteps d world dr a).2 = some e := by
          simp [runSteps, hs, hr] at h
          exact h
        simp only [List.cons_append, runSteps, hs, hr, List.append_eq]
        rw [runSteps_append_err d world dr a b e h2]

/-- The operation loop over an exception-free prefix appends the suffix. -/
theorem runOps_append_ok (d : Deployer) (world : List String → ExecResult) (dr : Bool) :
    ∀ a b, (runOps d world dr a).2 = none →
      runOps d world dr (a ++ b) =
        ((runOps d world dr a).1 ++ (runOps d world dr b).1, (runOps d world dr b).2)
  | [], b, _ => by simp [runOps]
  | op :: a, b, h => by
    match hr : (runSteps d world dr (stepsOfOp d op)).2 with
    | some e => simp [runOps, hr] at h
    | none =>
      have h2 : (runOps d world dr a).2 = none := by
        simp [runOps, hr] at h
        exact h
      simp only [List.cons_append, runOps, hr, List.append_eq]
      rw [runOps_append_ok d world dr a b h2]
      simp

/-- The operation loop stops at the first operation that raises. -/
theorem runOps_append_err (d : Deployer) (world : List String → ExecResult) (dr : Bool) :
    ∀ a b e, (runOps d world dr a).2 = some e →
      runOps d world dr (a ++ b) = runOps d world dr a
  | [], _, e, h => by simp [runOps] at h
  | op :: a, b, e, h => by
    match hr : (runSteps d world dr (stepsOfOp d op)).2 with
    | some e2 => simp [runOps, hr]
    | none =>
      have h2 : (runOps d world dr a).2 = some e := by
        simp [runOps, hr] at h
        exact h
      simp only [List.cons_append, runOps, hr, List.append_eq]
      rw [runOps_append_err d world dr a b e h2]

/-- In a dry run, a step loop whose commands all build logs exactly one
simulated line per command, spawns nothing, and raises nothing. -/
theorem runSteps_dry (d : Deployer) (world : List String → ExecResult) :
    ∀ steps cs, seqSteps steps = some cs →
      runSteps d world true steps = (cs.map (drySpecLine d), none)
  | [], cs, h => by
    simp [seqSteps] at h
    subst h
    simp [runSteps]
  | step :: rest, cs, h => by
    match hs : step.1 with
    | Except.error k => simp [seqSteps, hs] at h
    | Except.ok cmd =>
      simp only [seqSteps, hs, Option.map_eq_some'] at h
      obtain ⟨cs2, hcs2, rfl⟩ := h
      rw [runSteps, hs]
      simp only [execOne_dry, runSteps_dry d world rest cs2 hcs2]
      simp [drySpecLine, String.append_assoc]

/-- In a dry run, an operation loop over a fully-buildable plan logs exactly
one simulated line per would-be command, in plan order. -/
theorem runOps_dry (d : Deployer) (world : List String → ExecResult) :
    ∀ ops cs, seqOps d ops = some cs →
      runOps d world true ops = (cs.map (drySpecLine d), none)
  | [], cs, h => by
    simp [seqOps] at h
    subst h
    simp [runOps]
  | op :: rest, cs, h => by
    match h1 : seqSteps (stepsOfOp d op), h2 : seqOps d rest with
    | some cs1, some cs2 =>
      rw [seqOps, h1, h2] at h
      simp only [Option.some.injEq] at h
      subst h
      rw [runOps, runSteps_dry d world _ cs1 h1]
      simp only [runOps_dry d world rest cs2 h2]
      simp
    | some cs1, none => rw [seqOps, h1, h2] at h; exact absurd h (by simp)
    | none, _ => rw [seqOps, h1] at h; exact absurd h (by simp)

/-- When the configured runtime root is non-empty and has no trailing slash
(and the tool name is relative), `_virtualenv_cmd` produces
`<runtimeRoot>/bin/<tool>`. -/
theorem virtualenv_cmd_eq (cfg : Config) (t : String)
    (h1 : cfg.virtualenv ≠ "") (h2 : endsSlash cfg.virtualenv = false)
    (h3 : startsSlash t = false) :
    virtualenv_cmd cfg t = cfg.virtualenv ++ ("/bin/" ++ t) := by
  have hinner : ospJoin cfg.virtualenv "bin" = cfg.virtualenv ++ "/" ++ "bin" := by
    rw [ospJoin, if_neg (by decide), if_neg (by simp [h1, h2])]
  have hne : cfg.virtualenv ++ "/" ++ "bin" ≠ "" := by
    intro h
    have := congrArg String.data h
    simp [String.data_append] at this
  have hend : endsSlash (cfg.virtualenv ++ "/" ++ "bin") = false := by
    simp [endsSlash, String.data_append]
  rw [virtualenv_cmd, hinner, ospJoin, if_neg (by simp [h3]), if_neg (by simp [hne, hend])]
  rw [String.append_assoc, String.append_assoc, String.append_assoc]
  rfl

/-- The configuration of the spec's end-to-end scenario (section 8). -/
def cfgEx : Config :=
  { name := "site", restart := "svc restart site", virtualenv := "/opt/venv",
    config := "/etc/site.ini", user := "deploy", group := "deploy" }

/-- The deployer of the spec's end-to-end scenario: one pinned-version
install, resolved identity 7:5. -/
def dEx : Deployer :=
  { config := cfgEx,
    deployment := [Operation.install [{ name := "foo", version := some "1.2" }]],
    uid := 7, gid := 5 }

/-- Claim C2: for every plan whose commands all build, a dry run spawns no
child process, raises nothing whatever the world does, and logs exactly one
`"DRY RUN: "`-prefixed line per would-be command — the per-spec lines with
the `<user>:<group>` identity label, and a trailing line for the restart
command with the `root` label. -/
theorem claim_C2 (d : Deployer) (world : List String → ExecResult)
    (cs : List (List String)) (h : buildPlan d = some cs) :
    execute d true world =
      (Event.info ("Deploying to " ++ d.config.name) ::
        (cs.map (drySpecLine d) ++ [dryRootLine (restart_cmd d.config)]), none)
    ∧ ∀ cmd pre, Event.spawn cmd pre ∉ (execute d true world).1 := by
  have hops := runOps_dry d world d.deployment cs h
  have hmain : execute d true world =
      (Event.info ("Deploying to " ++ d.config.name) ::
        (cs.map (drySpecLine d) ++ [dryRootLine (restart_cmd d.config)]), none) := by
    rw [execute, hops]
    simp [execOne_dry, dryRootLine]
  refine ⟨hmain, ?_⟩
  intro cmd pre hmem
  rw [hmain] at hmem
  simp [drySpecLine, dryRootLine] at hmem

/-- Witness for claim C2: the spec's end-to-end dry-run scenario. -/
theorem claim_C2_witness :
    buildPlan dEx = some [["/opt/venv/bin/pip", "install", "-U", "foo==1.2"]]
    ∧ execute dEx true (fun _ => ExecResult.ok "") =
        (Event.info ("Deploying to " ++ dEx.config.name) ::
          ([["/opt/venv/bin/pip", "install", "-U", "foo==1.2"]].map (drySpecLine dEx)
            ++ [dryRootLine (restart_cmd dEx.config)]), none) :=
  ⟨by decide, (claim_C2 dEx (fun _ => ExecResult.ok "") _ (by decide)).1⟩

/-- Claim C3: the source-install form is chosen exactly when the spec
carries a `src` field (when it does not, the pinned-package form is chosen
and the source form is not even constructible — its builder raises); and
with `src` and `tag` present the built command is exactly
`[<runtimeRoot>/bin/pip, install, -U, -e, <src>@<tag>#egg=<name>]`. -/
theorem claim_C3 (cfg : Config) (pip : PipInstall)
    (h1 : cfg.virtualenv ≠ "") (h2 : endsSlash cfg.virtualenv = false) :
    (pip.src.isSome = true → pip_install cfg pip = pip_install_src cfg pip)
    ∧ (pip.src.isSome = false →
        pip_install cfg pip = pip_install_package cfg pip
          ∧ pip_install_src cfg pip = Except.error "src")
    ∧ (∀ s t, pip.src = some s → pip.tag = some t →
        pip_install cfg pip =
          Except.ok [cfg.virtualenv ++ "/bin/pip", "install", "-U", "-e",
            s ++ "@" ++ t ++ "#egg=" ++ pip.name]) := by
  refine ⟨fun hs => by rw [pip_install, if_pos hs], fun hs => ?_, fun s t hs ht => ?_⟩
  · constructor
    · rw [pip_install, if_neg (by simp [hs])]
    · have hn : pip.src = none := by
        cases hq : pip.src with
        | none => rfl
        | some s => rw [hq] at hs; simp at hs
      simp [pip_install_src, pip_requirement, hn, Except.map]
  · have hv := virtualenv_cmd_eq cfg "pip" h1 h2 (by decide)
    rw [pip_install, if_pos (by simp [hs])]
    simp only [pip_install_src, pip_requirement, hs, ht, Except.map, hv]
    rfl

/-- Witness for claim C3: a source spec with url `git+u`, tag `v1`,
name `foo` against the scenario configuration. -/
theorem claim_C3_witness :
    pip_install cfgEx { name := "foo", src := some "git+u", tag := some "v1" } =
      Except.ok ["/opt/venv" ++ "/bin/pip", "install", "-U", "-e",
        "git+u" ++ "@" ++ "v1" ++ "#egg=" ++ "foo"] :=
  (claim_C3 cfgEx { name := "foo", src := some "git+u", tag := some "v1" }
    (by decide) (by decide)).2.2 "git+u" "v1" rfl rfl

/-- Claim C4: for a spec with a `version` and no `src`, the built command is
exactly `[<runtimeRoot>/bin/pip, install, -U, <name>==<version>]`. -/
theorem claim_C4 (cfg : Config) (pip : PipInstall) (v : String)
    (h1 : cfg.virtualenv ≠ "") (h2 : endsSlash cfg.virtualenv = false)
    (hsrc : pip.src = none) (hver : pip.version = some v) :
    pip_install cfg pip =
      Except.ok [cfg.virtualenv ++ "/bin/pip", "install", "-U", pip.name ++ "==" ++ v] := by
  have hv := virtualenv_cmd_eq cfg "pip" h1 h2 (by decide)
  rw [pip_install, if_neg (by simp [hsrc]), pip_install_package, hver, hv]
  rfl

/-- Witness for claim C4: the spec's end-to-end scenario install spec. -/
theorem claim_C4_witness :
    pip_install cfgEx { name := "foo", version := some "1.2" } =
      Except.ok ["/opt/venv" ++ "/bin/pip", "install", "-U", "foo" ++ "==" ++ "1.2"] :=
  claim_C4 cfgEx { name := "foo", version := some "1.2" } "1.2"
    (by decide) (by decide) rfl rfl

/-- Claim C5: whenever the operation loop finishes without an exception —
in particular for the empty plan, whose loop is trivially exception-free —
`execute` runs exactly one restart command, after all operation events, as
the final segment of the run; its argument vector is the configured restart
string split on single spaces, it runs as root with no identity override
(its spawn carries no pre-exec identity switch), and a non-zero exit of the
restart always aborts the run. -/
theorem claim_C5 (d : Deployer) (world : List String → ExecResult) (dr : Bool)
    (h : (runOps d world dr d.deployment).2 = none) :
    restart_cmd d.config = splitSp d.config.restart
    ∧ execute d dr world =
        (Event.info ("Deploying to " ++ d.config.name) ::
          ((runOps d world dr d.deployment).1
            ++ (execOne d world (restart_cmd d.config) dr true true).1),
         (execOne d world (restart_cmd d.config) dr true true).2)
    ∧ (execOne d world (restart_cmd d.config) dr true true).1.head? =
        some (Event.info ((if dr then "DRY RUN: " else "")
          ++ "(AS root) " ++ String.intercalate " " (restart_cmd d.config)))
    ∧ (∀ cmd pre, Event.spawn cmd pre ∈ (execOne d world (restart_cmd d.config) dr true true).1
        → pre = [])
    ∧ (∀ code out, dr = false → world (restart_cmd d.config) = ExecResult.fail code out →
        (execute d dr world).2
          = some (PyExc.calledProcessError (restart_cmd d.config) code out)) := by
  have hmain : execute d dr world =
      (Event.info ("Deploying to " ++ d.config.name) ::
        ((runOps d world dr d.deployment).1
          ++ (execOne d world (restart_cmd d.config) dr true true).1),
       (execOne d world (restart_cmd d.config) dr true true).2) := by
    simp only [execute, h]
  refine ⟨rfl, hmain, ?_, ?_, ?_⟩
  · cases dr with
    | true => rw [execOne_dry]; rfl
    | false => cases hw : world (restart_cmd d.config) <;> simp [execOne, hw]
  · intro cmd pre hmem
    cases dr with
    | true => rw [execOne_dry] at hmem; simp at hmem
    | false =>
      cases hw : world (restart_cmd d.config) <;>
        simp [execOne, hw] at hmem <;> exact hmem.2
  · intro code out hdr hfail
    subst hdr
    rw [hmain]
    simp [execOne, hfail]

/-- Witness for claim C5: the end-to-end scenario with a succeeding install
command and a restart command failing with exit code 2. -/
theorem claim_C5_witness :
    (runOps dEx
      (fun c => if c = ["svc", "restart", "site"] then ExecResult.fail 2 "down" else ExecResult.ok "")
      false dEx.deployment).2 = none
    ∧ (execute dEx false
        (fun c => if c = ["svc", "restart", "site"] then ExecResult.fail 2 "down" else ExecResult.ok "")).2
      = some (PyExc.calledProcessError (restart_cmd dEx.config) 2 "down") :=
  ⟨by decide,
   (claim_C5 dEx
      (fun c => if c = ["svc", "restart", "site"] then ExecResult.fail 2 "down" else ExecResult.ok "")
      false (by decide)).2.2.2.2 2 "down" rfl (by decide)⟩

/-- Claim C9: every child spawned by a non-root `_execute` call carries the
`user_changer` pre-exec hook, which sets the effective group to the resolved
gid strictly before setting the effective user to the resolved uid. -/
theorem claim_C9 (d : Deployer) (world : List String → ExecResult) (cmd : List String)
    (foe : Bool) (c : List String) (pre : List SysCall)
    (h : Event.spawn c pre ∈ (execOne d world cmd false false foe).1) :
    pre = user_changer d.uid d.gid
    ∧ pre = [SysCall.setgid d.gid, SysCall.setuid d.uid]
    ∧ ∃ i j, i < j ∧ pre.get? i = some (SysCall.setgid d.gid)
        ∧ pre.get? j = some (SysCall.setuid d.uid) := by
  have hpre : pre = user_changer d.uid d.gid := by
    cases hw : world cmd <;> simp [execOne, hw] at h
    · exact h.2
    · exact h.2
  refine ⟨hpre, by rw [hpre]; rfl, 0, 1, by decide, ?_, ?_⟩
  · rw [hpre]; rfl
  · rw [hpre]; rfl

/-- Witness for claim C9: a concrete failing non-root command of the
scenario deployer (resolved identity 7:5). -/
theorem claim_C9_witness :
    Event.spawn ["x"] [SysCall.setgid 5, SysCall.setuid 7]
        ∈ (execOne dEx (fun _ => ExecResult.fail 1 "boom") ["x"] false false false).1
    ∧ [SysCall.setgid 5, SysCall.setuid 7] = user_changer dEx.uid dEx.gid :=
  ⟨by decide,
   (claim_C9 dEx (fun _ => ExecResult.fail 1 "boom") ["x"] false ["x"]
      [SysCall.setgid 5, SysCall.setuid 7] (by decide)).1⟩

mutual

/-- The accumulator-passing renderer equals the accumulator followed by the
compositional depth-first rendering. -/
theorem vmsgAcc_eq : ∀ (acc : String) (t : ErrTree), vmsgAcc acc t = acc ++ flattenDF t
  | acc, ErrTree.leaf m => by
    rw [vmsgAcc, flattenDF]
    simp [String.append_assoc]
  | acc, ErrTree.dict kvs => by
    rw [vmsgAcc, flattenDF]
    exact vmsgDict_eq acc kvs
  | acc, ErrTree.list xs => by
    rw [vmsgAcc, flattenDF]
    exact vmsgList_eq acc xs

/-- Accumulator elimination for the dict pass. -/
theorem vmsgDict_eq : ∀ (acc : String) (kvs : List (String × ErrTree)),
    vmsgDict acc kvs = acc ++ flattenKVs kvs
  | acc, [] => by
    rw [vmsgDict, flattenKVs]
    simp
  | acc, kv :: rest => by
    rw [vmsgDict, flattenKVs, vmsgDict_eq _ rest, vmsgAcc_eq _ kv.2]
    simp [String.append_assoc]

/-- Accumulator elimination for the list pass. -/
theorem vmsgList_eq : ∀ (acc : String) (xs : List ErrTree),
    vmsgList acc xs = acc ++ flattenList xs
  | acc, [] => by
    rw [vmsgList, flattenList]
    simp
  | acc, x :: rest => by
    rw [vmsgList, flattenList, vmsgList_eq _ rest, vmsgAcc_eq _ x]
    simp [String.append_assoc]

end

/-- Counterexample to claim C7: for the error tree
`{p: {a: [m1], b: [m2]}}` the source's renderer emits the second error as
`b."m2"` — the already-emitted parent segment `p.` is not repeated — while a
per-path rendering (one item per error path carrying its full chain of
`"field."` segments, as the claim describes) would emit `p.b."m2"`; the two
renderings differ. -/
theorem claim_C7_counterexample :
    validation_msg "configuration file"
        (ErrTree.dict [("p", ErrTree.dict [("a", ErrTree.leaf "m1"), ("b", ErrTree.leaf "m2")])])
      = "Validation error(s) in configuration file: p.a.\"m1\"b.\"m2\""
    ∧ claimRender "configuration file"
        (ErrTree.dict [("p", ErrTree.dict [("a", ErrTree.leaf "m1"), ("b", ErrTree.leaf "m2")])])
      = "Validation error(s) in configuration file: p.a.\"m1\"p.b.\"m2\""
    ∧ validation_msg "configuration file"
        (ErrTree.dict [("p", ErrTree.dict [("a", ErrTree.leaf "m1"), ("b", ErrTree.leaf "m2")])])
      ≠ claimRender "configuration file"
        (ErrTree.dict [("p", ErrTree.dict [("a", ErrTree.leaf "m1"), ("b", ErrTree.leaf "m2")])]) := by
  refine ⟨by decide, by decide, by decide⟩

/-- Claim C7 as amended: the renderer produces a single string — not one
line per error path — equal to the document-name prefix followed by the
depth-first, insertion-order traversal of the tree in which each dict key
contributes `"<key>."` once when it is first visited and each leaf
contributes its message in double quotes; path segments already emitted are
not repeated for later siblings.  Being a pure function of the tree, the
rendering is deterministic. -/
theorem claim_C7 (docname : String) (t : ErrTree) :
    validation_msg docname t = "Validation error(s) in " ++ docname ++ ": " ++ flattenDF t := by
  rw [validation_msg, vmsgAcc_eq]

/-- Claim C6, evaluated at a failing input: when the scenario's install
command exits 1 with output `boom`, the run emits the warning log record
`("Command %s returned exit code %d\n%s", (cmd, 1))` and prints the captured
output — but that record carries three conversion specifiers and only two
arguments, so the logging module fails to render it and the warning naming
the command and exit code is never actually emitted (the info record of the
same run, whose argument count matches, renders fine). -/
theorem claim_C6 :
    (execute dEx false (fun _ => ExecResult.fail 1 "boom")).1 =
      [Event.info "Deploying to site",
       Event.info "(AS deploy:deploy) /opt/venv/bin/pip install -U foo==1.2",
       Event.spawn ["/opt/venv/bin/pip", "install", "-U", "foo==1.2"] (user_changer 7 5),
       Event.warning "Command %s returned exit code %d\n%s"
         [PyVal.vlist ["/opt/venv/bin/pip", "install", "-U", "foo==1.2"], PyVal.vint 1],
       Event.print "boom"]
    ∧ renderLogRecord "Command %s returned exit code %d\n%s"
        [PyVal.vlist ["/opt/venv/bin/pip", "install", "-U", "foo==1.2"], PyVal.vint 1] = none
    ∧ renderLogRecord "%s(AS %s) %s"
        [PyVal.vstr "", PyVal.vstr "deploy:deploy",
         PyVal.vstr "/opt/venv/bin/pip install -U foo==1.2"]
      = some "(AS deploy:deploy) /opt/venv/bin/pip install -U foo==1.2" := by
  refine ⟨by decide, by decide, by decide⟩

/-- A deployer whose single operation is a paster step with neither
`plugin` nor `command`. -/
def dPasterEmpty : Deployer :=
  { config := cfgEx, deployment := [Operation.paster {}], uid := 7, gid := 5 }

/-- A deployer whose single install spec has neither `src` nor `version`. -/
def dNoVersion : Deployer :=
  { config := cfgEx, deployment := [Operation.install [{ name := "foo" }]], uid := 7, gid := 5 }

/-- A deployer whose single install spec has `src` but no `tag`. -/
def dNoTag : Deployer :=
  { config := cfgEx, deployment := [Operation.install [{ name := "foo", src := some "git+u" }]],
    uid := 7, gid := 5 }

/-- Claim C10: three deployment documents accepted by `validate_deployment`
whose command building raises a `KeyError` instead of returning an argument
vector — a paster step without `plugin` (or `command`), an install spec with
neither `src` nor `version`, and an install spec with `src` but no `tag`;
each aborts `execute` at build time, even in a dry run. -/
theorem claim_C10 :
    ((validate_deployment (Y.dict [("deployment", Y.list [Y.dict [("paster", Y.dict [])]])])).2
        = none
      ∧ toPlan (Y.dict [("deployment", Y.list [Y.dict [("paster", Y.dict [])]])])
        = some dPasterEmpty.deployment
      ∧ paster_cmd cfgEx {} = Except.error "plugin"
      ∧ (execute dPasterEmpty true (fun _ => ExecResult.ok "")).2
        = some (PyExc.keyError "plugin"))
    ∧ ((validate_deployment (Y.dict [("deployment", Y.list [Y.dict [("install",
          Y.list [Y.dict [("name", Y.str "foo")]])]])])).2 = none
      ∧ toPlan (Y.dict [("deployment", Y.list [Y.dict [("install",
          Y.list [Y.dict [("name", Y.str "foo")]])]])])
        = some dNoVersion.deployment
      ∧ pip_install cfgEx { name := "foo" } = Except.error "version"
      ∧ (execute dNoVersion true (fun _ => ExecResult.ok "")).2
        = some (PyExc.keyError "version"))
    ∧ ((validate_deployment (Y.dict [("deployment", Y.list [Y.dict [("install",
          Y.list [Y.dict [("name", Y.str "foo"), ("src", Y.str "git+u")]])]])])).2 = none
      ∧ toPlan (Y.dict [("deployment", Y.list [Y.dict [("install",
          Y.list [Y.dict [("name", Y.str "foo"), ("src", Y.str "git+u")]])]])])
        = some dNoTag.deployment
      ∧ pip_install cfgEx { name := "foo", src := some "git+u" } = Except.error "tag"
      ∧ (execute dNoTag true (fun _ => ExecResult.ok "")).2
        = some (PyExc.keyError "tag")) := by
  refine ⟨⟨rfl, rfl, rfl, by decide⟩, ⟨rfl, rfl, rfl, by decide⟩, ⟨rfl, rfl, rfl, by decide⟩⟩

/-- Claim C8: for every config document missing a required field, the
validator returns a non-empty error tree containing a `required field`
entry for every missing field (not just the first), and the run aborts with
the rendered validation message before any command is built or run — the
event trace of the whole invocation is empty. -/
theorem claim_C8 (kvs : List (String × Y)) (dep : Y) (dr : Bool)
    (world : List String → ExecResult) (pw gr : String → Option Nat) (f : String)
    (hf : f ∈ configSchemaFields) (hmiss : ylookup kvs f = none) :
    ∃ entries, (validate_config (Y.dict kvs)).2 = some (ErrTree.dict entries)
      ∧ entries ≠ []
      ∧ (∀ g ∈ configSchemaFields, ylookup kvs g = none →
          (g, ErrTree.list [ErrTree.leaf "required field"]) ∈ entries)
      ∧ mainFlow pw gr (Y.dict kvs) dep dr world
        = ([], some (validation_msg "configuration file" (ErrTree.dict entries))) := by
  have hmem : ∀ g ∈ configSchemaFields, ylookup kvs g = none →
      (g, ErrTree.list [ErrTree.leaf "required field"]) ∈ configErrors kvs := by
    intro g hg hgm
    have hin : (g, ErrTree.list [ErrTree.leaf "required field"]) ∈
        configSchemaFields.filterMap (fun x => (cfgFieldErr kvs x).map (fun e => (x, e))) := by
      rw [List.mem_filterMap]
      exact ⟨g, hg, by rw [cfgFieldErr, hgm]; rfl⟩
    exact List.mem_append.mpr (Or.inl hin)
  have hne : configErrors kvs ≠ [] := by
    intro h
    have hx := hmem f hf hmiss
    rw [h] at hx
    exact absurd hx (List.not_mem_nil _)
  have hv : (validate_config (Y.dict kvs)).2 = some (ErrTree.dict (configErrors kvs)) := by
    cases hc : configErrors kvs with
    | nil => exact absurd hc hne
    | cons a l => simp [validate_config, hc]
  have hm : mainFlow pw gr (Y.dict kvs) dep dr world
      = ([], some (validation_msg "configuration file" (ErrTree.dict (configErrors kvs)))) := by
    simp only [mainFlow, hv]
  exact ⟨configErrors kvs, hv, hne, hmem, hm⟩

/-- Witness for claim C8: a config document carrying only `name`. -/
theorem claim_C8_witness :
    ∃ entries,
      (validate_config (Y.dict [("name", Y.str "site")])).2 = some (ErrTree.dict entries)
      ∧ entries ≠ []
      ∧ (∀ g ∈ configSchemaFields, ylookup [("name", Y.str "site")] g = none →
          (g, ErrTree.list [ErrTree.leaf "required field"]) ∈ entries)
      ∧ mainFlow (fun _ => none) (fun _ => none) (Y.dict [("name", Y.str "site")]) (Y.dict [])
          false (fun _ => ExecResult.ok "")
        = ([], some (validation_msg "configuration file" (ErrTree.dict entries))) :=
  claim_C8 [("name", Y.str "site")] (Y.dict []) false (fun _ => ExecResult.ok "")
    (fun _ => none) (fun _ => none) "restart" (by decide) rfl

/-- Unfolding of the step loop at a step whose command built. -/
theorem runSteps_cons_ok (d : Deployer) (world : List String → ExecResult) (dr : Bool)
    (cmd : List String) (foe : Bool) (rest : List (Except String (List String) × Bool)) :
    runSteps d world dr ((Except.ok cmd, foe) :: rest) =
      (match (execOne d world cmd dr false foe).2 with
       | some e => ((execOne d world cmd dr false foe).1, some e)
       | none => ((execOne d world cmd dr false foe).1 ++ (runSteps d world dr rest).1,
                  (runSteps d world dr rest).2)) := rfl

/-- Claim C1: in a real run, decompose the plan around an install or
uninstall spec `s` whose command `cmd` exits non-zero, with everything before
`s` raising no exception.  If `s`'s `fail_on_error` is true (or defaulted),
the whole run aborts with the `CalledProcessError`: the trace ends with the
failing spec's events and contains no restart segment.  If it is false, the
failure's warning record is logged and the run continues through the rest of
the operation, the remaining operations, and finally the restart command,
whose outcome becomes the run's outcome. -/
theorem claim_C1 (d : Deployer) (world : List String → ExecResult)
    (ops1 ops2 : List Operation) (opMid : Operation)
    (pre post : List (Except String (List String) × Bool))
    (cmd : List String) (foe : Bool) (code : Int) (out : String)
    (hplan : d.deployment = ops1 ++ opMid :: ops2)
    (hspec : (∃ ss1 s ss2, opMid = Operation.install (ss1 ++ s :: ss2)
        ∧ pre = stepsOfOp d (Operation.install ss1)
        ∧ post = stepsOfOp d (Operation.install ss2)
        ∧ pip_install d.config s = Except.ok cmd
        ∧ foe = s.fail_on_error.getD true)
      ∨ (∃ ss1 s ss2, opMid = Operation.uninstall (ss1 ++ s :: ss2)
        ∧ pre = stepsOfOp d (Operation.uninstall ss1)
        ∧ post = stepsOfOp d (Operation.uninstall ss2)
        ∧ cmd = pip_uninstall d.config s
        ∧ foe = s.fail_on_error.getD true))
    (hfail : world cmd = ExecResult.fail code out)
    (hops1 : (runOps d world false ops1).2 = none)
    (hpre : (runSteps d world false pre).2 = none) :
    (foe = true →
      execute d false world =
        (Event.info ("Deploying to " ++ d.config.name) ::
          ((runOps d world false ops1).1 ++ ((runSteps d world false pre).1
            ++ (execOne d world cmd false false true).1)),
         some (PyExc.calledProcessError cmd code out)))
    ∧ (foe = false →
        (runSteps d world false post).2 = none →
        (runOps d world false ops2).2 = none →
        Event.warning "Command %s returned exit code %d\n%s"
            [PyVal.vlist cmd, PyVal.vint code] ∈ (execute d false world).1
          ∧ execute d false world =
            (Event.info ("Deploying to " ++ d.config.name) ::
              ((runOps d world false ops1).1 ++ ((runSteps d world false pre).1
                ++ ((execOne d world cmd false false false).1
                ++ ((runSteps d world false post).1
                ++ ((runOps d world false ops2).1
                ++ (execOne d world (restart_cmd d.config) false true true).1))))),
             (execOne d world (restart_cmd d.config) false true true).2)) := by
  have hmid : stepsOfOp d opMid = pre ++ (Except.ok cmd, foe) :: post := by
    rcases hspec with ⟨ss1, s, ss2, h1, h2, h3, h4, h5⟩ | ⟨ss1, s, ss2, h1, h2, h3, h4, h5⟩ <;>
      subst h1 <;> subst h2 <;> subst h3 <;> subst h5 <;>
      simp [stepsOfOp, List.map_append, h4]
  have hsplitpre := runSteps_append_ok d world false pre ((Except.ok cmd, foe) :: post) hpre
  constructor
  · intro hfoe
    subst hfoe
    have hexec2 : (execOne d world cmd false false true).2
        = some (PyExc.calledProcessError cmd code out) := by
      simp [execOne, hfail]
    have hstep : runSteps d world false (stepsOfOp d opMid)
        = ((runSteps d world false pre).1 ++ (execOne d world cmd false false true).1,
           some (PyExc.calledProcessError cmd code out)) := by
      rw [hmid, hsplitpre, runSteps_cons_ok]
      rw [hexec2]
    have hrunops : runOps d world false d.deployment
        = ((runOps d world false ops1).1 ++ ((runSteps d world false pre).1
            ++ (execOne d world cmd false false true).1),
           some (PyExc.calledProcessError cmd code out)) := by
      rw [hplan, runOps_append_ok d world false ops1 (opMid :: ops2) hops1, runOps]
      rw [hstep]
    simp only [execute, hrunops]
  · intro hfoe hpost hops2
    subst hfoe
    have hexec2 : (execOne d world cmd false false false).2 = none := by
      simp [execOne, hfail]
    have hstep : runSteps d world false (stepsOfOp d opMid)
        = ((runSteps d world false pre).1 ++ ((execOne d world cmd false false false).1
            ++ (runSteps d world false post).1),
           (runSteps d world false post).2) := by
      rw [hmid, hsplitpre, runSteps_cons_ok]
      rw [hexec2]
    have hrunops : runOps d world false d.deployment
        = ((runOps d world false ops1).1 ++ (((runSteps d world false pre).1
            ++ ((execOne d world cmd false false false).1
            ++ (runSteps d world false post).1))
            ++ (runOps d world false ops2).1),
           (runOps d world false ops2).2) := by
      rw [hplan, runOps_append_ok d world false ops1 (opMid :: ops2) hops1, runOps]
      rw [hstep, hpost]
    have htrace : execute d false world =
        (Event.info ("Deploying to " ++ d.config.name) ::
          ((runOps d world false ops1).1 ++ ((runSteps d world false pre).1
            ++ ((execOne d world cmd false false false).1
            ++ ((runSteps d world false post).1
            ++ ((runOps d world false ops2).1
            ++ (execOne d world (restart_cmd d.config) false true true).1))))),
         (execOne d world (restart_cmd d.config) false true true).2) := by
      simp only [execute, hrunops, hops2]
      simp [List.append_assoc]
    refine ⟨?_, htrace⟩
    rw [htrace]
    have hw : Event.warning "Command %s returned exit code %d\n%s"
        [PyVal.vlist cmd, PyVal.vint code] ∈ (execOne d world cmd false false false).1 := by
      simp [execOne, hfail]
    simp only [List.mem_cons, List.mem_append]
    exact Or.inr (Or.inr (Or.inr (Or.inl hw)))

/-- Witness for claim C1: the scenario install spec (defaulted
`fail_on_error`) whose command exits 1 — the run aborts with the
`CalledProcessError` after the failing spec's events, before any restart. -/
theorem claim_C1_witness :
    execute dEx false (fun _ => ExecResult.fail 1 "boom") =
      ([Event.info "Deploying to site",
        Event.info "(AS deploy:deploy) /opt/venv/bin/pip install -U foo==1.2",
        Event.spawn ["/opt/venv/bin/pip", "install", "-U", "foo==1.2"] (user_changer 7 5),
        Event.warning "Command %s returned exit code %d\n%s"
          [PyVal.vlist ["/opt/venv/bin/pip", "install", "-U", "foo==1.2"], PyVal.vint 1],
        Event.print "boom"],
       some (PyExc.calledProcessError ["/opt/venv/bin/pip", "install", "-U", "foo==1.2"] 1 "boom")) := by
  have h := (claim_C1 dEx (fun _ => ExecResult.fail 1 "boom") [] []
    (Operation.install [{ name := "foo", version := some "1.2" }])
    (stepsOfOp dEx (Operation.install []))
    (stepsOfOp dEx (Operation.install []))
    ["/opt/venv/bin/pip", "install", "-U", "foo==1.2"] true 1 "boom"
    rfl
    (Or.inl ⟨[], { name := "foo", version := some "1.2" }, [], rfl, rfl, rfl, rfl, rfl⟩)
    rfl rfl rfl).1 rfl
  exact h.trans (by decide)
